import Mathlib

/-!
Shallow embedding of the x509-parser repository slice (src/x509.rs):
the X.509 certificate and CRL data model, the typed-extension
accessors, name canonicalization, the validity-window algorithm and
serial-number formatting, together with theorems settling the
specification claims.

Time instants (chrono DateTime in UTC) are embedded as Int counts of
nanoseconds since the Unix epoch; the timestamp method is the floor of
that count divided by 10^9 (chrono stores seconds plus a nonnegative
sub-second nanosecond field, so its timestamp is floor division).
Byte slices are List Nat (each element a byte value), BigUint is Nat,
and Rust Option and Result map to Option and Except.

Definitions come first, then all theorems.
-/

namespace X509

/-- Embeds an object identifier as its list of numeric arcs. -/
abbrev Oid := List Nat

/-- Embeds the content discriminator of an already-decoded BER/DER
node (BerObjectContent of the der_parser crate). The declaring crate
is outside this source slice; the embedding keeps exactly the
distinctions the code in x509.rs makes: the four recognized string
kinds carrying their text, and every other content kind collapsed to
Other, carrying the result of as_slice (some bytes when the raw bytes
of the value can be obtained, none when they cannot). -/
inductive BerObjectContent where
  | NumericString (s : String)
  | PrintableString (s : String)
  | UTF8String (s : String)
  | IA5String (s : String)
  | Other (slice : Option (List Nat))
deriving DecidableEq, Repr

/-- Embeds a decoded DER node (DerObject of the der_parser crate): the
code under verification only ever reads its content. -/
structure DerObject where
  content : BerObjectContent
deriving DecidableEq, Repr

/-- Embeds as_slice on a decoded node: the four string kinds expose
the bytes of their text, every other kind exposes whatever bytes the
decoder can give (carried inside Other). Only the Other case is
reached by attribute_value_to_string. -/
def DerObject.as_slice (o : DerObject) : Option (List Nat) :=
  match o.content with
  | .NumericString s | .PrintableString s | .UTF8String s | .IA5String s =>
      some (s.toUTF8.toList.map (fun b => b.toNat))
  | .Other slice => slice

structure AttributeTypeAndValue where
  attr_type : Oid
  attr_value : DerObject
deriving DecidableEq, Repr

structure RelativeDistinguishedName where
  set : List AttributeTypeAndValue
deriving DecidableEq, Repr

structure X509Name where
  rdn_seq : List RelativeDistinguishedName
  raw : List Nat
deriving DecidableEq, Repr

/-- Embeds a bit string as its byte payload (the unused-bit count is
irrelevant to every function in this slice). -/
structure BitStringObject where
  data : List Nat
deriving DecidableEq, Repr

structure AlgorithmIdentifier where
  algorithm : Oid
  parameters : DerObject
deriving DecidableEq, Repr

structure SubjectPublicKeyInfo where
  algorithm : AlgorithmIdentifier
  subject_public_key : BitStringObject
deriving DecidableEq, Repr

structure UniqueIdentifier where
  bits : BitStringObject
deriving DecidableEq, Repr

inductive X509Version where
  | V1
  | V2
  | V3
  | Invalid (n : Nat)
deriving DecidableEq, Repr

/-- Modelled from the spec: the basic-constraints extension body (its
declaring module, crate extensions, is not part of this source slice).
The is_ca accessor in x509.rs reads its ca field. -/
structure BasicConstraints where
  ca : Bool
  path_len_constraint : Option Nat
deriving DecidableEq, Repr

/-- Modelled from the spec: key-usage extension body (opaque here). -/
structure KeyUsage where
  flags : Nat
deriving DecidableEq, Repr

/-- Modelled from the spec: extended-key-usage extension body (opaque
here). -/
structure ExtendedKeyUsage where
  purposes : List Oid
deriving DecidableEq, Repr

/-- Modelled from the spec: policy-constraints extension body (opaque
here). -/
structure PolicyConstraints where
  require_explicit_policy : Option Nat
  inhibit_policy_mapping : Option Nat
deriving DecidableEq, Repr

/-- Modelled from the spec: inhibit-any-policy extension body (opaque
here). -/
structure InhibitAnyPolicy where
  skip_certs : Nat
deriving DecidableEq, Repr

/-- Modelled from the spec: policy-mappings extension body (opaque
here). -/
structure PolicyMappings where
  mappings : List (Oid × Oid)
deriving DecidableEq, Repr

/-- Modelled from the spec: subject-alternative-name extension body
(its general names are opaque byte payloads here). -/
structure SubjectAlternativeName where
  general_names : List (List Nat)
deriving DecidableEq, Repr

/-- Modelled from the spec: name-constraints extension body (opaque
here). -/
structure NameConstraints where
  permitted_subtrees : List (List Nat)
  excluded_subtrees : List (List Nat)
deriving DecidableEq, Repr

/-- Modelled from the spec: the closed tagged union over all
recognized extension bodies plus an unsupported fallback
(ParsedExtension of the crate extensions module, whose declaration is
not part of this source slice; the variant set is the one the
accessors in x509.rs dispatch on). -/
inductive ParsedExtension where
  | UnsupportedExtension
  | BasicConstraints (bc : BasicConstraints)
  | KeyUsage (ku : KeyUsage)
  | ExtendedKeyUsage (eku : ExtendedKeyUsage)
  | PolicyConstraints (pc : PolicyConstraints)
  | InhibitAnyPolicy (iap : InhibitAnyPolicy)
  | PolicyMappings (pm : PolicyMappings)
  | SubjectAlternativeName (san : SubjectAlternativeName)
  | NameConstraints (nc : NameConstraints)
deriving DecidableEq, Repr

structure X509Extension where
  oid : Oid
  critical : Bool
  value : List Nat
  parsed_extension : ParsedExtension
deriving DecidableEq, Repr

/-- Embeds the validity window: both bounds are timezone-aware
instants, given as nanoseconds since the epoch. -/
structure Validity where
  not_before : Int
  not_after : Int
deriving DecidableEq, Repr

structure TbsCertificate where
  version : Nat
  serial : Nat
  signature : AlgorithmIdentifier
  issuer : X509Name
  validity : Validity
  subject : X509Name
  subject_pki : SubjectPublicKeyInfo
  issuer_uid : Option UniqueIdentifier
  subject_uid : Option UniqueIdentifier
  extensions : List (Oid × X509Extension)
  raw : List Nat
  raw_serial : List Nat
deriving DecidableEq, Repr

structure X509Certificate where
  tbs_certificate : TbsCertificate
  signature_algorithm : AlgorithmIdentifier
  signature_value : BitStringObject
deriving DecidableEq, Repr

/-- Embeds the timestamp method of DateTime: whole seconds since the
epoch, the floor of the nanosecond count divided by 10^9. -/
def timestamp (t : Int) : Int := Int.fdiv t 1000000000

/-- Embeds the to_std conversion followed by ok: a signed duration (in
nanoseconds) converts to a standard (unsigned) duration exactly when
it is not negative. -/
def duration_to_std_ok (d : Int) : Option Int :=
  if d < 0 then none else some d

/-- Embeds Validity::time_to_expiration. The source samples the wall
clock (Local::now converted to the not_before timezone); the embedding
takes the sampled instant now as an explicit argument. -/
def Validity.time_to_expiration (v : Validity) (now : Int) : Option Int :=
  let nb := v.not_before
  let na := v.not_after
  if now < nb then
    none
  else if timestamp na ≤ timestamp now then
    none
  else
    duration_to_std_ok (na - now)

/-- Modelled from the spec: the well-known extension identifiers from
the identifier registry (crate objects module, outside this source
slice); values are the standard RFC5280 arcs, distinctness is all
the accessors rely on. -/
def OID_EXT_BC : Oid := [2, 5, 29, 19]

def OID_EXT_KU : Oid := [2, 5, 29, 15]

def OID_EXT_EKU : Oid := [2, 5, 29, 37]

def OID_EXT_POLICYCONSTRAINTS : Oid := [2, 5, 29, 36]

def OID_EXT_INHIBITANYPOLICY : Oid := [2, 5, 29, 54]

def OID_EXT_POLICYMAPPINGS : Oid := [2, 5, 29, 33]

def OID_EXT_SAN : Oid := [2, 5, 29, 17]

def OID_EXT_NAMECONSTRAINTS : Oid := [2, 5, 29, 30]

/-- Embeds HashMap::get, on the association-list model of the
extension map (keys unique, as in the source HashMap from Oid to
X509Extension). -/
def hashmap_get (m : List (Oid × X509Extension)) (k : Oid) :
    Option X509Extension :=
  match m with
  | [] => none
  | (k2, v) :: rest => if k2 = k then some v else hashmap_get rest k

def TbsCertificate.basic_constraints (c : TbsCertificate) :
    Option (Bool × BasicConstraints) :=
  match hashmap_get c.extensions OID_EXT_BC with
  | none => none
  | some ext =>
    match ext.parsed_extension with
    | ParsedExtension.BasicConstraints bc => some (ext.critical, bc)
    | _ => none

def TbsCertificate.key_usage (c : TbsCertificate) :
    Option (Bool × KeyUsage) :=
  match hashmap_get c.extensions OID_EXT_KU with
  | none => none
  | some ext =>
    match ext.parsed_extension with
    | ParsedExtension.KeyUsage ku => some (ext.critical, ku)
    | _ => none

def TbsCertificate.extended_key_usage (c : TbsCertificate) :
    Option (Bool × ExtendedKeyUsage) :=
  match hashmap_get c.extensions OID_EXT_EKU with
  | none => none
  | some ext =>
    match ext.parsed_extension with
    | ParsedExtension.ExtendedKeyUsage eku => some (ext.critical, eku)
    | _ => none

def TbsCertificate.policy_constraints (c : TbsCertificate) :
    Option (Bool × PolicyConstraints) :=
  match hashmap_get c.extensions OID_EXT_POLICYCONSTRAINTS with
  | none => none
  | some ext =>
    match ext.parsed_extension with
    | ParsedExtension.PolicyConstraints pc => some (ext.critical, pc)
    | _ => none

def TbsCertificate.inhibit_anypolicy (c : TbsCertificate) :
    Option (Bool × InhibitAnyPolicy) :=
  match hashmap_get c.extensions OID_EXT_INHIBITANYPOLICY with
  | none => none
  | some ext =>
    match ext.parsed_extension with
    | ParsedExtension.InhibitAnyPolicy iap => some (ext.critical, iap)
    | _ => none

def TbsCertificate.policy_mappings (c : TbsCertificate) :
    Option (Bool × PolicyMappings) :=
  match hashmap_get c.extensions OID_EXT_POLICYMAPPINGS with
  | none => none
  | some ext =>
    match ext.parsed_extension with
    | ParsedExtension.PolicyMappings pm => some (ext.critical, pm)
    | _ => none

def TbsCertificate.subject_alternative_name (c : TbsCertificate) :
    Option (Bool × SubjectAlternativeName) :=
  match hashmap_get c.extensions OID_EXT_SAN with
  | none => none
  | some ext =>
    match ext.parsed_extension with
    | ParsedExtension.SubjectAlternativeName san => some (ext.critical, san)
    | _ => none

def TbsCertificate.name_constraints (c : TbsCertificate) :
    Option (Bool × NameConstraints) :=
  match hashmap_get c.extensions OID_EXT_NAMECONSTRAINTS with
  | none => none
  | some ext =>
    match ext.parsed_extension with
    | ParsedExtension.NameConstraints nc => some (ext.critical, nc)
    | _ => none

/-- Embeds TbsCertificate::is_ca: map the basic-constraints result to
its ca field, defaulting to false when absent. -/
def TbsCertificate.is_ca (c : TbsCertificate) : Bool :=
  (c.basic_constraints.map (fun p => p.2.ca)).getD false

/-- Embeds X509Certificate::version: interpret the raw stored version
integer. -/
def X509Certificate.version (c : X509Certificate) : X509Version :=
  match c.tbs_certificate.version with
  | 0 => X509Version.V1
  | 1 => X509Version.V2
  | 2 => X509Version.V3
  | n => X509Version.Invalid n

/-- Maps 0 to 15 to one lowercase hex digit. -/
def hex_digit_lower (n : Nat) : Char :=
  if n < 10 then Char.ofNat (48 + n) else Char.ofNat (87 + n)

/-- Embeds the Rust 02x formatting of a byte: exactly two lowercase
hex digits. -/
def hex_byte (b : Nat) : String :=
  String.mk [hex_digit_lower (b / 16 % 16), hex_digit_lower (b % 16)]

/-- Embeds String::pop of Rust: remove the last character (a no-op on
the empty string). -/
def string_pop (s : String) : String := String.mk s.data.dropLast

/-- Embeds TbsCertificate::raw_serial_as_string: fold every serial
byte into lowercase hex followed by a colon, then pop the trailing
colon. -/
def TbsCertificate.raw_serial_as_string (c : TbsCertificate) : String :=
  string_pop (c.raw_serial.foldl (fun a b => a ++ hex_byte b ++ ":") "")

/-- Joins a list of strings with a separator; this is the rendering
the spec describes for both serial formatting and name
canonicalization. -/
def joinSep (sep : String) : List String → String
  | [] => ""
  | [s] => s
  | s :: s2 :: rest => s ++ sep ++ joinSep sep (s2 :: rest)

/-- Modelled from the spec: the error taxonomy of this layer (the
crate error module is outside this source slice); the only error this
slice raises is the invalid-name error. -/
inductive X509Error where
  | Generic
  | InvalidVersion
  | InvalidSerial
  | InvalidX509Name
deriving DecidableEq, Repr

/-- Maps 0 to 15 to one uppercase hex digit. -/
def hex_digit_upper (n : Nat) : Char :=
  if n < 10 then Char.ofNat (48 + n) else Char.ofNat (55 + n)

/-- Modelled from the spec: the HEXUPPER encoder of the data_encoding
crate (external collaborator): uppercase hex, two characters per byte,
no separators. -/
def hexupper_encode (bs : List Nat) : String :=
  String.mk ((bs.map
    (fun b => [hex_digit_upper (b / 16 % 16), hex_digit_upper (b % 16)])).flatten)

/-- Embeds attribute_value_to_string: text content verbatim for the
four recognized string kinds, otherwise the uppercase hex encoding of
the raw bytes of the value, and the invalid-name error when those
bytes cannot be obtained at all. -/
def attribute_value_to_string (attr : DerObject) (_attr_type : Oid) :
    Except X509Error String :=
  match attr.content with
  | BerObjectContent.NumericString s => Except.ok s
  | BerObjectContent.PrintableString s => Except.ok s
  | BerObjectContent.UTF8String s => Except.ok s
  | BerObjectContent.IA5String s => Except.ok s
  | BerObjectContent.Other _ =>
    match attr.as_slice with
    | some s => Except.ok (hexupper_encode s)
    | none => Except.error X509Error.InvalidX509Name

/-- Modelled from the spec: the identifier-to-short-name registry
(oid2sn from the crate objects module, an external collaborator); it
contains at least the four well-known attribute types the repository
test exercises. -/
def oid2sn (oid : Oid) : Option String :=
  if oid = [2, 5, 4, 3] then some "CN"
  else if oid = [2, 5, 4, 6] then some "C"
  else if oid = [2, 5, 4, 8] then some "ST"
  else if oid = [2, 5, 4, 10] then some "O"
  else none

/-- Modelled from the spec: the debug rendering of an identifier, used
as the label when the registry has no short name. -/
def oid_debug (oid : Oid) : String :=
  "OID(" ++ joinSep "." (oid.map Nat.repr) ++ ")"

/-- Computes the label for one attribute: registry short name when
resolved, the debug form of the identifier otherwise. -/
def attr_sn_str (t : Oid) : String :=
  match oid2sn t with
  | some s => s
  | none => oid_debug t

/-- Embeds x509name_to_string: the nested fallible folds of the
source, joining the items of one RDN with a plus separator and
successive RDNs with a comma separator (the source tests emptiness of
the accumulated string with its len method). -/
def x509name_to_string (rdn_seq : List RelativeDistinguishedName) :
    Except X509Error String :=
  rdn_seq.foldl
    (fun acc rdn =>
      acc.bind (fun v =>
        (rdn.set.foldl
            (fun acc2 attr =>
              acc2.bind (fun v2 =>
                (attribute_value_to_string attr.attr_value attr.attr_type).bind
                  (fun val_str =>
                    let rdn1 := attr_sn_str attr.attr_type ++ "=" ++ val_str
                    match v2.length with
                    | 0 => Except.ok rdn1
                    | _ + 1 => Except.ok (v2 ++ " + " ++ rdn1))))
            (Except.ok "")).bind
          (fun w =>
            match v.length with
            | 0 => Except.ok w
            | _ + 1 => Except.ok (v ++ ", " ++ w))))
    (Except.ok "")

/-- Embeds the Display implementation for X509Name: write the
canonical string on success, the fixed fallback text on failure. -/
def X509Name.display (n : X509Name) : String :=
  match x509name_to_string n.rdn_seq with
  | Except.ok o => o
  | Except.error _ => "<X509Error: Invalid X.509 name>"

/-- Gives the label=value item one attribute contributes (defined for
renderable attributes; unrenderable ones default the value part). -/
def attr_item (attr : AttributeTypeAndValue) : String :=
  attr_sn_str attr.attr_type ++ "=" ++
    ((attribute_value_to_string attr.attr_value attr.attr_type).toOption.getD "")

/-- Provides a concrete algorithm identifier for sample
certificates. -/
def sampleAlg : AlgorithmIdentifier :=
  ⟨[1, 2, 840, 113549, 1, 1, 11], ⟨BerObjectContent.Other none⟩⟩

/-- Provides a concrete certificate body: raw version integer 2, a
two-byte serial, and a critical basic-constraints extension asserting
CA true. -/
def sampleTbs : TbsCertificate :=
  ⟨2, 1, sampleAlg, ⟨[], []⟩, ⟨0, 1000000000⟩, ⟨[], []⟩,
    ⟨sampleAlg, ⟨[]⟩⟩, none, none,
    [(OID_EXT_BC,
      ⟨OID_EXT_BC, true, [], ParsedExtension.BasicConstraints ⟨true, none⟩⟩)],
    [], [1, 163]⟩

def sampleCert : X509Certificate := ⟨sampleTbs, sampleAlg, ⟨[]⟩⟩

/-- Mirrors the four-RDN name of the repository test: C=FR,
ST=Some-State, O=Internet Widgits Pty Ltd, and a multi-valued last RDN
with CN=Test1 and CN=Test2. -/
def exampleName : X509Name :=
  ⟨[⟨[⟨[2, 5, 4, 6], ⟨BerObjectContent.PrintableString "FR"⟩⟩]⟩,
    ⟨[⟨[2, 5, 4, 8], ⟨BerObjectContent.PrintableString "Some-State"⟩⟩]⟩,
    ⟨[⟨[2, 5, 4, 10],
        ⟨BerObjectContent.PrintableString "Internet Widgits Pty Ltd"⟩⟩]⟩,
    ⟨[⟨[2, 5, 4, 3], ⟨BerObjectContent.PrintableString "Test1"⟩⟩,
      ⟨[2, 5, 4, 3], ⟨BerObjectContent.PrintableString "Test2"⟩⟩]⟩],
   []⟩

/-- Provides a name whose single attribute value has no obtainable
bytes, so canonicalization fails with the invalid-name error. -/
def badName : X509Name :=
  ⟨[⟨[⟨[2, 5, 4, 3], ⟨BerObjectContent.Other none⟩⟩]⟩], []⟩

/-! ## Theorems -/

theorem timestamp_le_timestamp {a b : Int} (h : a ≤ b) :
    timestamp a ≤ timestamp b := by
  unfold timestamp
  rw [Int.fdiv_eq_ediv _ (by norm_num), Int.fdiv_eq_ediv _ (by norm_num)]
  exact Int.ediv_le_ediv (by norm_num) h

theorem lt_of_timestamp_lt {a b : Int} (h : timestamp a < timestamp b) :
    a < b := by
  by_contra hc
  exact absurd (timestamp_le_timestamp (not_lt.mp hc)) (not_le.mpr h)

theorem time_to_expiration_none_cases (v : Validity) (now : Int) :
    v.time_to_expiration now = none ↔
      now < v.not_before ∨ timestamp v.not_after ≤ timestamp now := by
  unfold Validity.time_to_expiration
  by_cases h1 : now < v.not_before
  · simp [h1]
  · by_cases h2 : timestamp v.not_after ≤ timestamp now
    · simp [h1, h2]
    · have hlt : now < v.not_after := lt_of_timestamp_lt (not_le.mp h2)
      have hpos : ¬ v.not_after - now < 0 := by omega
      simp [h1, h2, duration_to_std_ok, hpos]

/-- C2: Validity::time_to_expiration returns none (no remaining
validity) in exactly two cases: the sampled time is strictly before
not_before, or the sampled time, truncated to whole seconds, is at or
past the whole-second timestamp of not_after. -/
theorem time_to_expiration_none_iff (v : Validity) (now : Int) :
    v.time_to_expiration now = none ↔
      now < v.not_before ∨ timestamp v.not_after ≤ timestamp now :=
  time_to_expiration_none_cases v now

/-- C3 counterexample: with not_before at 0, not_after at 1.5 seconds
and now at 1.2 seconds (all in nanoseconds) we have not_before ≤ now
and now < not_after, yet time_to_expiration returns none rather than
the remaining duration, because now and not_after fall in the same
whole second. -/
theorem time_to_expiration_subsecond_counterexample :
    (0 : Int) ≤ 1200000000 ∧ (1200000000 : Int) < 1500000000 ∧
      Validity.time_to_expiration ⟨0, 1500000000⟩ 1200000000 = none := by
  refine ⟨by norm_num, by norm_num, ?_⟩
  decide

/-- C3 as amended: for every triple of not_before, not_after and now
with not_before ≤ now and the whole-second timestamp of now strictly
before the whole-second timestamp of not_after, time_to_expiration
returns exactly the duration not_after minus now, and that duration is
strictly positive. -/
theorem time_to_expiration_exact (v : Validity) (now : Int)
    (h1 : v.not_before ≤ now)
    (h2 : timestamp now < timestamp v.not_after) :
    v.time_to_expiration now = some (v.not_after - now) ∧
      0 < v.not_after - now := by
  have hlt : now < v.not_after := lt_of_timestamp_lt h2
  have hn1 : ¬ now < v.not_before := not_lt.mpr h1
  have hn2 : ¬ timestamp v.not_after ≤ timestamp now := not_le.mpr h2
  constructor
  · unfold Validity.time_to_expiration
    have hpos : ¬ v.not_after - now < 0 := by omega
    simp [hn1, hn2, duration_to_std_ok, hpos]
  · omega

/-- Witness for C3 as amended: not_before 0, not_after 10 seconds, now
3 seconds; the remaining duration is exactly 7 seconds. -/
theorem time_to_expiration_exact_witness :
    Validity.time_to_expiration ⟨0, 10000000000⟩ 3000000000 =
        some 7000000000 ∧ (0 : Int) < 7000000000 := by
  have h := time_to_expiration_exact ⟨0, 10000000000⟩ 3000000000
    (by norm_num) (by decide)
  simpa using h

/-- C8: a Validity whose window is inverted (not_after at or before
not_before) is never valid: time_to_expiration returns none at every
sampled time (and, being a total function, never crashes). -/
theorem time_to_expiration_inverted (v : Validity)
    (h : v.not_after ≤ v.not_before) (now : Int) :
    v.time_to_expiration now = none := by
  rw [time_to_expiration_none_cases]
  by_cases h1 : now < v.not_before
  · exact Or.inl h1
  · exact Or.inr (timestamp_le_timestamp (le_trans h (not_lt.mp h1)))

/-- Witness for C8: not_before 5 seconds, not_after 2 seconds
(inverted); sampled at 3 seconds the result is none. -/
theorem time_to_expiration_inverted_witness :
    Validity.time_to_expiration ⟨5000000000, 2000000000⟩ 3000000000 = none :=
  time_to_expiration_inverted ⟨5000000000, 2000000000⟩ (by norm_num) 3000000000

/-- C1: each typed-extension accessor returns some pair of the stored
criticality flag and a body exactly when the corresponding extension
identifier is present in the extension map and the stored parsed body
is the expected variant; in every other case (identifier absent, or
present with a different variant) it returns none. Each accessor is a
total Option-valued function, so none of them can return an error or
panic. -/
theorem typed_accessors_some_iff (c : TbsCertificate) :
    (∀ crit bc, c.basic_constraints = some (crit, bc) ↔
        ∃ ext, hashmap_get c.extensions OID_EXT_BC = some ext ∧
          ext.parsed_extension = ParsedExtension.BasicConstraints bc ∧
          crit = ext.critical) ∧
    (∀ crit ku, c.key_usage = some (crit, ku) ↔
        ∃ ext, hashmap_get c.extensions OID_EXT_KU = some ext ∧
          ext.parsed_extension = ParsedExtension.KeyUsage ku ∧
          crit = ext.critical) ∧
    (∀ crit eku, c.extended_key_usage = some (crit, eku) ↔
        ∃ ext, hashmap_get c.extensions OID_EXT_EKU = some ext ∧
          ext.parsed_extension = ParsedExtension.ExtendedKeyUsage eku ∧
          crit = ext.critical) ∧
    (∀ crit pc, c.policy_constraints = some (crit, pc) ↔
        ∃ ext, hashmap_get c.extensions OID_EXT_POLICYCONSTRAINTS = some ext ∧
          ext.parsed_extension = ParsedExtension.PolicyConstraints pc ∧
          crit = ext.critical) ∧
    (∀ crit iap, c.inhibit_anypolicy = some (crit, iap) ↔
        ∃ ext, hashmap_get c.extensions OID_EXT_INHIBITANYPOLICY = some ext ∧
          ext.parsed_extension = ParsedExtension.InhibitAnyPolicy iap ∧
          crit = ext.critical) ∧
    (∀ crit pm, c.policy_mappings = some (crit, pm) ↔
        ∃ ext, hashmap_get c.extensions OID_EXT_POLICYMAPPINGS = some ext ∧
          ext.parsed_extension = ParsedExtension.PolicyMappings pm ∧
          crit = ext.critical) ∧
    (∀ crit san, c.subject_alternative_name = some (crit, san) ↔
        ∃ ext, hashmap_get c.extensions OID_EXT_SAN = some ext ∧
          ext.parsed_extension = ParsedExtension.SubjectAlternativeName san ∧
          crit = ext.critical) ∧
    (∀ crit nc, c.name_constraints = some (crit, nc) ↔
        ∃ ext, hashmap_get c.extensions OID_EXT_NAMECONSTRAINTS = some ext ∧
          ext.parsed_extension = ParsedExtension.NameConstraints nc ∧
          crit = ext.critical) := by
  refine ⟨?_, ?_, ?_, ?_, ?_, ?_, ?_, ?_⟩ <;> intro crit body
  · unfold TbsCertificate.basic_constraints
    cases hg : hashmap_get c.extensions OID_EXT_BC with
    | none => simp
    | some ext =>
      cases hp : ext.parsed_extension <;> simp [hp]
      aesop
  · unfold TbsCertificate.key_usage
    cases hg : hashmap_get c.extensions OID_EXT_KU with
    | none => simp
    | some ext =>
      cases hp : ext.parsed_extension <;> simp [hp]
      aesop
  · unfold TbsCertificate.extended_key_usage
    cases hg : hashmap_get c.extensions OID_EXT_EKU with
    | none => simp
    | some ext =>
      cases hp : ext.parsed_extension <;> simp [hp]
      aesop
  · unfold TbsCertificate.policy_constraints
    cases hg : hashmap_get c.extensions OID_EXT_POLICYCONSTRAINTS with
    | none => simp
    | some ext =>
      cases hp : ext.parsed_extension <;> simp [hp]
      aesop
  · unfold TbsCertificate.inhibit_anypolicy
    cases hg : hashmap_get c.extensions OID_EXT_INHIBITANYPOLICY with
    | none => simp
    | some ext =>
      cases hp : ext.parsed_extension <;> simp [hp]
      aesop
  · unfold TbsCertificate.policy_mappings
    cases hg : hashmap_get c.extensions OID_EXT_POLICYMAPPINGS with
    | none => simp
    | some ext =>
      cases hp : ext.parsed_extension <;> simp [hp]
      aesop
  · unfold TbsCertificate.subject_alternative_name
    cases hg : hashmap_get c.extensions OID_EXT_SAN with
    | none => simp
    | some ext =>
      cases hp : ext.parsed_extension <;> simp [hp]
      aesop
  · unfold TbsCertificate.name_constraints
    cases hg : hashmap_get c.extensions OID_EXT_NAMECONSTRAINTS with
    | none => simp
    | some ext =>
      cases hp : ext.parsed_extension <;> simp [hp]
      aesop

/-- C7: is_ca is true exactly when the basic-constraints accessor
yields a parsed BasicConstraints body with ca true; in every other
case (extension absent, variant mismatch, or ca false) it is false,
whatever other extensions are present. -/
theorem is_ca_iff (c : TbsCertificate) :
    c.is_ca = true ↔
      ∃ crit bc, c.basic_constraints = some (crit, bc) ∧ bc.ca = true := by
  unfold TbsCertificate.is_ca
  cases h : c.basic_constraints with
  | none => simp
  | some p =>
    obtain ⟨crit0, bc0⟩ := p
    cases crit0 <;> simp

/-- C9: the version accessor maps the raw stored integer 0 to V1, 1 to
V2, 2 to V3, and any other raw value n to Invalid n, preserving the
out-of-range integer rather than rejecting it. -/
theorem version_mapping (c : X509Certificate) :
    (c.tbs_certificate.version = 0 → c.version = X509Version.V1) ∧
    (c.tbs_certificate.version = 1 → c.version = X509Version.V2) ∧
    (c.tbs_certificate.version = 2 → c.version = X509Version.V3) ∧
    (c.tbs_certificate.version ≠ 0 → c.tbs_certificate.version ≠ 1 →
      c.tbs_certificate.version ≠ 2 →
      c.version = X509Version.Invalid c.tbs_certificate.version) := by
  unfold X509Certificate.version
  rcases hv : c.tbs_certificate.version with _ | _ | _ | m <;> simp [hv]

/-- Witness for C9: a certificate whose raw version integer is 2 has
interpreted version V3. -/
theorem version_mapping_witness : sampleCert.version = X509Version.V3 :=
  (version_mapping sampleCert).2.2.1 rfl

theorem serial_fold_eq (bs : List Nat) (b0 : Nat) (a : String) :
    (b0 :: bs).foldl (fun x b => x ++ hex_byte b ++ ":") a =
      a ++ joinSep ":" ((b0 :: bs).map hex_byte) ++ ":" := by
  induction bs generalizing b0 a with
  | nil => simp [joinSep]
  | cons b1 rest ih =>
    rw [List.foldl_cons, ih b1 (a ++ hex_byte b0 ++ ":")]
    simp [joinSep, String.append_assoc]

theorem hex_byte_length (b : Nat) : (hex_byte b).length = 2 := by
  simp [hex_byte]

theorem joinSep_hex_length (b0 : Nat) (bs : List Nat) :
    (joinSep ":" ((b0 :: bs).map hex_byte)).length =
      3 * (bs.length + 1) - 1 := by
  induction bs generalizing b0 with
  | nil => simp [joinSep, hex_byte_length]
  | cons b1 rest ih =>
    have hj : joinSep ":" ((b0 :: b1 :: rest).map hex_byte) =
        hex_byte b0 ++ ":" ++ joinSep ":" ((b1 :: rest).map hex_byte) := by
      simp [joinSep]
    rw [hj]
    have hsep : (":" : String).length = 1 := rfl
    simp only [String.length_append, hex_byte_length, ih b1, hsep]
    simp only [List.length_cons]
    omega

/-- C6: raw_serial_as_string renders the raw serial bytes as lowercase
two-character hex pairs separated by colons with no trailing
separator; for n at least 1 bytes the string has length 3n - 1, and
the empty byte sequence yields the empty string. It is a total
function, so it cannot fail. -/
theorem raw_serial_as_string_spec (c : TbsCertificate)
    (hb : ∀ b ∈ c.raw_serial, b < 256) :
    c.raw_serial_as_string = joinSep ":" (c.raw_serial.map hex_byte) ∧
    (c.raw_serial ≠ [] →
      c.raw_serial_as_string.length = 3 * c.raw_serial.length - 1) ∧
    (c.raw_serial = [] → c.raw_serial_as_string = "") := by
  cases hr : c.raw_serial with
  | nil =>
    have hnil : c.raw_serial_as_string = "" := by
      unfold TbsCertificate.raw_serial_as_string
      rw [hr]
      rfl
    exact ⟨by rw [hnil]; rfl, fun h => absurd rfl h, fun _ => hnil⟩
  | cons b0 bs =>
    have hfold : c.raw_serial_as_string =
        joinSep ":" ((b0 :: bs).map hex_byte) := by
      unfold TbsCertificate.raw_serial_as_string
      rw [hr, serial_fold_eq bs b0 ""]
      unfold string_pop
      apply String.ext
      simp
    refine ⟨hfold, fun _ => ?_, fun h => absurd h (by simp)⟩
    rw [hfold, joinSep_hex_length]
    simp

/-- Witness for C6: the two-byte serial with values 1 and 163 renders
to the string 01:a3, of length 5 = 3 times 2 minus 1. -/
theorem raw_serial_as_string_spec_witness :
    sampleTbs.raw_serial_as_string = "01:a3" ∧
      sampleTbs.raw_serial_as_string.length = 5 := by
  have h := raw_serial_as_string_spec sampleTbs (by decide)
  refine ⟨h.1.trans (by decide), ?_⟩
  simpa using h.2.1 (by decide)

/-- C5: attribute_value_to_string returns the text content verbatim
for the four recognized string kinds, the uppercase hex encoding of
the raw bytes for any other content whose bytes are obtainable, and
the invalid-name error exactly when the content is none of the string
kinds and its raw bytes cannot be obtained at all. -/
theorem attribute_value_to_string_spec (attr : DerObject) (t : Oid) :
    (∀ s, (attr.content = BerObjectContent.NumericString s ∨
           attr.content = BerObjectContent.PrintableString s ∨
           attr.content = BerObjectContent.UTF8String s ∨
           attr.content = BerObjectContent.IA5String s) →
       attribute_value_to_string attr t = Except.ok s) ∧
    (∀ bs, attr.content = BerObjectContent.Other (some bs) →
       attribute_value_to_string attr t = Except.ok (hexupper_encode bs)) ∧
    (attribute_value_to_string attr t =
        Except.error X509Error.InvalidX509Name ↔
       attr.content = BerObjectContent.Other none) ∧
    (∀ e, attribute_value_to_string attr t = Except.error e →
       e = X509Error.InvalidX509Name) := by
  obtain ⟨content⟩ := attr
  cases content <;>
    simp [attribute_value_to_string, DerObject.as_slice]
  case Other slice => cases slice <;> simp

/-- Witness for C5: a printable-string value renders verbatim. -/
theorem attribute_value_to_string_spec_witness :
    attribute_value_to_string ⟨BerObjectContent.PrintableString "FR"⟩
      [2, 5, 4, 6] = Except.ok "FR" :=
  (attribute_value_to_string_spec ⟨BerObjectContent.PrintableString "FR"⟩
    [2, 5, 4, 6]).1 "FR" (Or.inr (Or.inl rfl))

/-- C10: the default text rendering of an X509Name is total: when
canonicalization succeeds it writes the canonical string, and when
canonicalization fails it writes the fixed fallback text instead of
propagating the error. -/
theorem display_renders_total (n : X509Name) :
    (∀ s, x509name_to_string n.rdn_seq = Except.ok s → n.display = s) ∧
    (∀ e, x509name_to_string n.rdn_seq = Except.error e →
      n.display = "<X509Error: Invalid X.509 name>") := by
  unfold X509Name.display
  cases h : x509name_to_string n.rdn_seq <;> simp

/-- Witness for C10: a name whose single attribute value has no
obtainable bytes fails canonicalization, and its rendering is the
fixed fallback text. -/
theorem display_renders_total_witness :
    X509Name.display badName = "<X509Error: Invalid X.509 name>" :=
  (display_renders_total badName).2 X509Error.InvalidX509Name rfl

theorem string_ne_empty_length {s : String} (h : s ≠ "") : s.length ≠ 0 := by
  intro h0
  exact h (String.ext (List.length_eq_zero.mp h0))

theorem append_item_ne_empty (a sep b : String) (ha : a ≠ "") :
    a ++ sep ++ b ≠ "" := by
  intro h
  have hlen := congrArg String.length h
  have h0 : ("" : String).length = 0 := rfl
  simp only [String.length_append, h0] at hlen
  exact string_ne_empty_length ha (by omega)

theorem attr_item_ne_empty (attr : AttributeTypeAndValue) :
    attr_item attr ≠ "" := by
  intro h
  have hlen := congrArg String.length h
  unfold attr_item at hlen
  have h1 : ("=" : String).length = 1 := rfl
  have h0 : ("" : String).length = 0 := rfl
  simp only [String.length_append, h1, h0] at hlen
  omega

theorem joinSep_ne_empty (sep : String) (l : List String) (hne : l ≠ [])
    (hall : ∀ s ∈ l, s ≠ "") : joinSep sep l ≠ "" := by
  match l, hne with
  | [s], _ => exact hall s (by simp)
  | s :: s2 :: rest, _ =>
    show s ++ sep ++ joinSep sep (s2 :: rest) ≠ ""
    exact append_item_ne_empty s sep _ (hall s (by simp))

theorem joinSep_cons_append (sep a b : String) (l : List String) :
    joinSep sep ((a ++ sep ++ b) :: l) = a ++ sep ++ joinSep sep (b :: l) := by
  cases l with
  | nil => rfl
  | cons c rest => simp [joinSep, String.append_assoc]

theorem length_fold_join_aux {α : Type} (sep : String) (f : α → String)
    (l : List α) (a : String) (ha : a ≠ "") :
    l.foldl (fun v x => match v.length with
      | 0 => f x
      | _ + 1 => v ++ sep ++ f x) a = joinSep sep (a :: l.map f) := by
  induction l generalizing a with
  | nil => rfl
  | cons x rest ih =>
    have hstep : (match a.length with
        | 0 => f x
        | _ + 1 => a ++ sep ++ f x) = a ++ sep ++ f x := by
      cases hal : a.length with
      | zero => exact absurd hal (string_ne_empty_length ha)
      | succ m => rfl
    rw [List.foldl_cons, hstep, ih _ (append_item_ne_empty a sep (f x) ha),
      List.map_cons, joinSep_cons_append]
    rfl

theorem length_fold_join {α : Type} (sep : String) (f : α → String)
    (l : List α) (hall : ∀ x ∈ l, f x ≠ "") :
    l.foldl (fun v x => match v.length with
      | 0 => f x
      | _ + 1 => v ++ sep ++ f x) "" = joinSep sep (l.map f) := by
  cases l with
  | nil => rfl
  | cons x rest =>
    rw [List.foldl_cons]
    show rest.foldl _ (f x) = _
    rw [length_fold_join_aux sep f rest (f x) (hall x (by simp)),
      List.map_cons]

theorem inner_fold_ok (set : List AttributeTypeAndValue)
    (hrend : ∀ attr ∈ set,
      (attribute_value_to_string attr.attr_value attr.attr_type).isOk = true)
    (a : String) :
    set.foldl
      (fun acc2 attr =>
        acc2.bind (fun v2 =>
          (attribute_value_to_string attr.attr_value attr.attr_type).bind
            (fun val_str =>
              let rdn1 := attr_sn_str attr.attr_type ++ "=" ++ val_str
              match v2.length with
              | 0 => Except.ok rdn1
              | _ + 1 => Except.ok (v2 ++ " + " ++ rdn1))))
      (Except.ok a) =
    Except.ok (set.foldl
      (fun v2 attr => match v2.length with
        | 0 => attr_item attr
        | _ + 1 => v2 ++ " + " ++ attr_item attr) a) := by
  induction set generalizing a with
  | nil => rfl
  | cons attr rest ih =>
    obtain ⟨s, hs⟩ : ∃ s,
        attribute_value_to_string attr.attr_value attr.attr_type =
          Except.ok s := by
      have h := hrend attr (by simp)
      cases hv : attribute_value_to_string attr.attr_value attr.attr_type with
      | ok s => exact ⟨s, rfl⟩
      | error e =>
        rw [hv] at h
        exact absurd h (by simp [Except.isOk, Except.toBool])
    have hitem : attr_item attr = attr_sn_str attr.attr_type ++ "=" ++ s := by
      unfold attr_item
      rw [hs]
      rfl
    rw [List.foldl_cons, List.foldl_cons]
    have hstep : (Except.ok a).bind (fun v2 =>
          (attribute_value_to_string attr.attr_value attr.attr_type).bind
            (fun val_str =>
              let rdn1 := attr_sn_str attr.attr_type ++ "=" ++ val_str
              match v2.length with
              | 0 => Except.ok rdn1
              | _ + 1 => Except.ok (v2 ++ " + " ++ rdn1))) =
        Except.ok (match a.length with
          | 0 => attr_item attr
          | _ + 1 => a ++ " + " ++ attr_item attr) := by
      show (attribute_value_to_string attr.attr_value attr.attr_type).bind
          (fun val_str =>
            let rdn1 := attr_sn_str attr.attr_type ++ "=" ++ val_str
            match a.length with
            | 0 => Except.ok rdn1
            | _ + 1 => Except.ok (a ++ " + " ++ rdn1)) = _
      rw [hs]
      show (match a.length with
        | 0 => Except.ok (attr_sn_str attr.attr_type ++ "=" ++ s)
        | _ + 1 =>
            Except.ok (a ++ " + " ++ (attr_sn_str attr.attr_type ++ "=" ++ s))) = _
      cases a.length <;> simp [hitem]
    rw [hstep]
    exact ih (fun attr2 h2 => hrend attr2 (by simp [h2])) _

theorem name_fold_ok (rdn_seq : List RelativeDistinguishedName)
    (hrend : ∀ rdn ∈ rdn_seq, ∀ attr ∈ rdn.set,
      (attribute_value_to_string attr.attr_value attr.attr_type).isOk = true)
    (a : String) :
    rdn_seq.foldl
      (fun acc rdn =>
        acc.bind (fun v =>
          (rdn.set.foldl
              (fun acc2 attr =>
                acc2.bind (fun v2 =>
                  (attribute_value_to_string attr.attr_value attr.attr_type).bind
                    (fun val_str =>
                      let rdn1 := attr_sn_str attr.attr_type ++ "=" ++ val_str
                      match v2.length with
                      | 0 => Except.ok rdn1
                      | _ + 1 => Except.ok (v2 ++ " + " ++ rdn1))))
              (Except.ok "")).bind
            (fun w =>
              match v.length with
              | 0 => Except.ok w
              | _ + 1 => Except.ok (v ++ ", " ++ w))))
      (Except.ok a) =
    Except.ok (rdn_seq.foldl
      (fun v rdn => match v.length with
        | 0 => joinSep " + " (rdn.set.map attr_item)
        | _ + 1 => v ++ ", " ++ joinSep " + " (rdn.set.map attr_item)) a) := by
  induction rdn_seq generalizing a with
  | nil => rfl
  | cons rdn rest ih =>
    have hinner : rdn.set.foldl
        (fun acc2 attr =>
          acc2.bind (fun v2 =>
            (attribute_value_to_string attr.attr_value attr.attr_type).bind
              (fun val_str =>
                let rdn1 := attr_sn_str attr.attr_type ++ "=" ++ val_str
                match v2.length with
                | 0 => Except.ok rdn1
                | _ + 1 => Except.ok (v2 ++ " + " ++ rdn1))))
        (Except.ok "") =
        Except.ok (joinSep " + " (rdn.set.map attr_item)) := by
      rw [inner_fold_ok rdn.set (hrend rdn (by simp)) ""]
      congr 1
      exact length_fold_join " + " attr_item rdn.set
        (fun attr _ => attr_item_ne_empty attr)
    rw [List.foldl_cons, List.foldl_cons]
    have hstep : (Except.ok a).bind (fun v =>
          (rdn.set.foldl
              (fun acc2 attr =>
                acc2.bind (fun v2 =>
                  (attribute_value_to_string attr.attr_value attr.attr_type).bind
                    (fun val_str =>
                      let rdn1 := attr_sn_str attr.attr_type ++ "=" ++ val_str
                      match v2.length with
                      | 0 => Except.ok rdn1
                      | _ + 1 => Except.ok (v2 ++ " + " ++ rdn1))))
              (Except.ok "")).bind
            (fun w =>
              match v.length with
              | 0 => Except.ok w
              | _ + 1 => Except.ok (v ++ ", " ++ w))) =
        Except.ok (match a.length with
          | 0 => joinSep " + " (rdn.set.map attr_item)
          | _ + 1 => a ++ ", " ++ joinSep " + " (rdn.set.map attr_item)) := by
      show (rdn.set.foldl
          (fun acc2 attr =>
            acc2.bind (fun v2 =>
              (attribute_value_to_string attr.attr_value attr.attr_type).bind
                (fun val_str =>
                  let rdn1 := attr_sn_str attr.attr_type ++ "=" ++ val_str
                  match v2.length with
                  | 0 => Except.ok rdn1
                  | _ + 1 => Except.ok (v2 ++ " + " ++ rdn1))))
          (Except.ok "")).bind
          (fun w =>
            match a.length with
            | 0 => Except.ok w
            | _ + 1 => Except.ok (a ++ ", " ++ w)) = _
      rw [hinner]
      show (match a.length with
        | 0 => Except.ok (joinSep " + " (rdn.set.map attr_item))
        | _ + 1 =>
            Except.ok (a ++ ", " ++ joinSep " + " (rdn.set.map attr_item))) = _
      cases a.length <;> rfl
    rw [hstep]
    exact ih (fun rdn2 h2 => hrend rdn2 (by simp [h2])) _

/-- C4: for every name with at least one RDN, every RDN non-empty (as
the data model requires) and every attribute renderable,
x509name_to_string succeeds and produces, in stored order, the
label=value items of each RDN joined with a plus separator inside an
RDN and with a comma separator between successive RDNs. -/
theorem x509name_to_string_renders (rdn_seq : List RelativeDistinguishedName)
    (hne : rdn_seq ≠ [])
    (hsets : ∀ rdn ∈ rdn_seq, rdn.set ≠ [])
    (hrend : ∀ rdn ∈ rdn_seq, ∀ attr ∈ rdn.set,
      (attribute_value_to_string attr.attr_value attr.attr_type).isOk = true) :
    x509name_to_string rdn_seq =
      Except.ok (joinSep ", "
        (rdn_seq.map (fun rdn => joinSep " + " (rdn.set.map attr_item)))) := by
  unfold x509name_to_string
  rw [name_fold_ok rdn_seq hrend ""]
  congr 1
  refine length_fold_join ", "
    (fun rdn => joinSep " + " (rdn.set.map attr_item)) rdn_seq
    (fun rdn hm => ?_)
  refine joinSep_ne_empty " + " _
    (fun hnil => hsets rdn hm (List.map_eq_nil_iff.mp hnil)) ?_
  intro s hsmem
  obtain ⟨attr, _, rfl⟩ := List.mem_map.mp hsmem
  exact attr_item_ne_empty attr

/-- Witness for C4: the four-RDN example with a multi-valued last RDN
renders exactly to the expected canonical string. -/
theorem x509name_to_string_renders_witness :
    x509name_to_string exampleName.rdn_seq =
      Except.ok
        "C=FR, ST=Some-State, O=Internet Widgits Pty Ltd, CN=Test1 + CN=Test2" := by
  rw [x509name_to_string_renders exampleName.rdn_seq (by decide) (by decide)
    (by decide)]
  congr 1

end X509
